import Mathlib

/-!
Verification of the syncpy/tomopy reconstruction wrapper layer
(`syncpy/tomopy/xtomo/xtomo_recon.py`, `xtomo_postprocess.py`,
`xtomo_preprocess.py`, `algorithms/recon/recon_test.py`) against the
natural-language specification of the repository.

The numeric values carried by the numpy arrays are modelled over `ℝ`
(the idealisation of the float32/float64 arithmetic of the source);
3-D arrays are nested lists in the numpy axis order
(projection, slice, pixel).  The iterative solvers `_art`, `_mlem`
and the `Gridrec` class are not part of the sources under review, so
the wrappers are modelled as functions parametrised by an abstract
solver; what the wrappers compute and hand to the solver is embedded
faithfully from `xtomo_recon.py`.
-/

/-- 3-D numpy array over scalars `α`, axes (projection, slice, pixel). -/
abbrev Arr3 (α : Type) := List (List (List α))

/-- `shape[0]` of a 3-D array. -/
def dim0 {α : Type} (A : Arr3 α) : ℕ := A.length

/-- `shape[1]` of a 3-D array. -/
def dim1 {α : Type} (A : Arr3 α) : ℕ := (A.headD []).length

/-- `shape[2]` of a 3-D array. -/
def dim2 {α : Type} (A : Arr3 α) : ℕ := ((A.headD []).headD []).length

/-- Elementwise map over a 3-D array (numpy ufunc broadcasting). -/
def map3 {α β : Type} (f : α → β) (A : Arr3 α) : Arr3 β :=
  A.map (List.map (List.map f))

/-- `np.zeros((a, b, c))`. -/
def zeros3 (a b c : ℕ) : Arr3 ℝ :=
  List.replicate a (List.replicate b (List.replicate c 0))

/-- `np.ones((a, b, c))`. -/
def ones3 (a b c : ℕ) : Arr3 ℝ :=
  List.replicate a (List.replicate b (List.replicate c 1))

/-- A numpy array is rectangular: every plane has the same length, and
every row of every plane has the same length. -/
def Rect3 {α : Type} (A : Arr3 α) : Prop :=
  (∀ p ∈ A, p.length = dim1 A) ∧ (∀ p ∈ A, ∀ r ∈ p, r.length = dim2 A)

/-- A Python scalar object together with its numpy dtype information:
`isF32` records whether the object is (an array of dtype) `np.float32`.
The wrappers test this with `isinstance(..., np.float32)` and coerce. -/
structure PyVal where
  val : ℝ
  isF32 : Bool

/-- The `XTomoDataset` object (`xtomo_dataset.py`): the fields touched by
the reconstruction wrappers. -/
structure XTomo where
  data : Arr3 ℝ
  theta : List ℝ
  center : PyVal
  dataRecon : Option (Arr3 ℝ)

/-- `np.max(theta)` for a 1-D angle array (the source only evaluates it on
nonempty arrays; an empty array is given the junk value 0). -/
noncomputable def thetaMax : List ℝ → ℝ
  | [] => 0
  | a :: l => l.foldl max a

/-- The in-place angle-unit conversion performed by `art` (lines 145-146)
and `mlem` (lines 205-206) of `xtomo_recon.py`:
`if np.max(xtomo.theta) > 90: xtomo.theta *= np.pi/180`. -/
noncomputable def convTheta (theta : List ℝ) : List ℝ :=
  if 90 < thetaMax theta then theta.map (fun t => t * (Real.pi / 180)) else theta

/-- Default pad width of `apply_padding` (`xtomo_preprocess.py`, line 36):
`num_pad = np.ceil(num_pixels * np.sqrt(2))`. -/
noncomputable def defaultNumPad (n : ℕ) : ℕ := ⌈(n : ℝ) * Real.sqrt 2⌉₊

/-- Modelled from the spec: one row of `_apply_padding` (the module
`algorithms/preprocess/apply_padding.py` is not among the sources).  The
spec states only that the pixel axis is padded to `num_pad` columns with
the rotation center shifting by half the padding added, i.e. the original
columns sit centred; the pad value is taken to be 1 (log-neutral). -/
def padRow (p : ℕ) (r : List ℝ) : List ℝ :=
  (List.replicate ((p - r.length) / 2) 1 ++ r) ++
    List.replicate ((p - r.length) - (p - r.length) / 2) 1

/-- Modelled from the spec: `_apply_padding` applied to a volume, padding
the pixel axis of every slice row to `p` columns. -/
def applyPadding (A : Arr3 ℝ) (p : ℕ) : Arr3 ℝ :=
  A.map (List.map (padRow p))

/-- `xtomo.apply_padding(overwrite=False)` as called by `art` (line 149)
and `mlem` (line 209): pads `xtomo.data` to the default pad width. -/
noncomputable def paddedData (x : XTomo) : Arr3 ℝ :=
  applyPadding x.data (defaultNumPad (dim2 x.data))

/-- Default reconstruction grid size (`xtomo_recon.py` lines 157, 217):
`num_grid = np.floor(data.shape[2] / np.sqrt(2))` on the padded data. -/
noncomputable def defaultNumGrid (p : ℕ) : ℕ := ⌊(p : ℝ) / Real.sqrt 2⌋₊

/-- The argument tuple handed to the per-slice solver
(`_art(data, theta, center, num_grid, iters, init_matrix)` and likewise
`_mlem`). -/
structure SolverArgs where
  data : Arr3 ℝ
  theta : List ℝ
  center : ℝ
  numGrid : ℕ
  iters : ℕ
  initMatrix : Arr3 ℝ

/-- The arguments the `art` wrapper (`xtomo_recon.py` lines 139-185)
computes and passes to `_art`:
theta converted from degrees when its maximum exceeds 90, data padded
and pre-logged with `-np.log`, center shifted by half the padding,
`num_grid` defaulted/clamped to `floor(padded/sqrt 2)`, and the initial
grid defaulted to zeros of shape `(data.shape[1], num_grid, num_grid)`. -/
noncomputable def artArgs (x : XTomo) (iters : ℕ) (numGrid : Option ℕ)
    (initMatrix : Option (Arr3 ℝ)) : SolverArgs :=
  let numPixels := dim2 x.data
  let theta := convTheta x.theta
  let d0 := paddedData x
  let d := map3 (fun v => -Real.log v) d0
  let center := x.center.val + ((dim2 d0 : ℝ) - (numPixels : ℝ)) / 2
  let ng := match numGrid with
    | none => defaultNumGrid (dim2 d0)
    | some g => if numPixels < g then defaultNumGrid (dim2 d0) else g
  let init := match initMatrix with
    | none => zeros3 (dim1 d0) ng ng
    | some m => m
  { data := d, theta := theta, center := center, numGrid := ng,
    iters := iters, initMatrix := init }

/-- The arguments the `mlem` wrapper (`xtomo_recon.py` lines 199-245)
computes and passes to `_mlem`: as for `art`, except the data is
pre-logged with `np.abs(-np.log(...))` and the initial grid defaults to
ones. -/
noncomputable def mlemArgs (x : XTomo) (iters : ℕ) (numGrid : Option ℕ)
    (initMatrix : Option (Arr3 ℝ)) : SolverArgs :=
  let numPixels := dim2 x.data
  let theta := convTheta x.theta
  let d0 := paddedData x
  let d := map3 (fun v => |(-Real.log v)|) d0
  let center := x.center.val + ((dim2 d0 : ℝ) - (numPixels : ℝ)) / 2
  let ng := match numGrid with
    | none => defaultNumGrid (dim2 d0)
    | some g => if numPixels < g then defaultNumGrid (dim2 d0) else g
  let init := match initMatrix with
    | none => ones3 (dim1 d0) ng ng
    | some m => m
  { data := d, theta := theta, center := center, numGrid := ng,
    iters := iters, initMatrix := init }

/-- The spec's required pre-log preprocessing, written from its words:
`data = |−ln(measured)|` applied elementwise. -/
noncomputable def specAbsNegLog (A : Arr3 ℝ) : Arr3 ℝ :=
  map3 (fun v => |(-Real.log v)|) A

/-- The `art` wrapper as a state transformer: it converts `xtomo.theta`
in place when its maximum exceeds 90, runs the solver on `artArgs`,
and either stores the reconstruction in `xtomo.data_recon`
(`overwrite=True`) or returns it (`overwrite=False`). -/
noncomputable def artRun (solver : SolverArgs → Arr3 ℝ) (x : XTomo)
    (iters : ℕ) (numGrid : Option ℕ) (initMatrix : Option (Arr3 ℝ))
    (overwrite : Bool) : XTomo × Option (Arr3 ℝ) :=
  let args := artArgs x iters numGrid initMatrix
  let recon := solver args
  let x1 : XTomo := { x with theta := convTheta x.theta }
  if overwrite then ({ x1 with dataRecon := some recon }, none)
  else (x1, some recon)

/-- The `mlem` wrapper as a state transformer, analogous to `artRun`. -/
noncomputable def mlemRun (solver : SolverArgs → Arr3 ℝ) (x : XTomo)
    (iters : ℕ) (numGrid : Option ℕ) (initMatrix : Option (Arr3 ℝ))
    (overwrite : Bool) : XTomo × Option (Arr3 ℝ) :=
  let args := mlemArgs x iters numGrid initMatrix
  let recon := solver args
  let x1 : XTomo := { x with theta := convTheta x.theta }
  if overwrite then ({ x1 with dataRecon := some recon }, none)
  else (x1, some recon)

/-- The `gridrec` wrapper (`xtomo_recon.py` lines 259-274), parametrised
by the (out-of-source) `Gridrec.reconstruct` solver: it first coerces
`xtomo.center` to `np.float32` in place when it is not one already, then
reconstructs, then stores or returns depending on `overwrite`. -/
def gridrecRun (solver : Arr3 ℝ → ℝ → List ℝ → Arr3 ℝ) (x : XTomo)
    (overwrite : Bool) : XTomo × Option (Arr3 ℝ) :=
  let c := if x.center.isF32 then x.center else { val := x.center.val, isF32 := true }
  let x1 : XTomo := { x with center := c }
  let recon := solver x1.data c.val x1.theta
  if overwrite then ({ x1 with dataRecon := some recon }, none)
  else (x1, some recon)

/-- The `Session` object of `recon_test.py` (the `tomopy.dataio.reader`
module is not among the sources; the flags are the fields `mlem_test`
reads): `FLAG_DATA`, `FLAG_THETA`, and whether `center` is set. -/
structure TomoSession where
  data : Arr3 ℝ
  theta : List ℝ
  center : ℝ
  flagData : Bool
  flagTheta : Bool
  hasCenter : Bool
  dataRecon : Option (Arr3 ℝ)

/-- View of a `Session` as the dataset fields the solver pipeline uses. -/
def sessionToXTomo (t : TomoSession) : XTomo :=
  { data := t.data, theta := t.theta,
    center := { val := t.center, isF32 := false }, dataRecon := t.dataRecon }

/-- The `mlem_test` wrapper (`recon_test.py` lines 17-99): it bypasses
with a log warning — returning nothing and leaving the session unchanged
— when data, angles or center are missing; otherwise it performs the same
computation as `mlem` (iters defaulting to 1), with the solver
`_mlem_test` returning a pair whose first component is the
reconstruction. -/
noncomputable def mlemTestRun (solver : SolverArgs → Arr3 ℝ × Arr3 ℝ)
    (t : TomoSession) (iters : Option ℕ) (numGrid : Option ℕ)
    (initMatrix : Option (Arr3 ℝ)) (overwrite : Bool) :
    TomoSession × Option (Arr3 ℝ) :=
  if t.flagData = false then (t, none)
  else if t.flagTheta = false then (t, none)
  else if t.hasCenter = false then (t, none)
  else
    let args := mlemArgs (sessionToXTomo t) (iters.getD 1) numGrid initMatrix
    let recon := (solver args).1
    let t1 : TomoSession := { t with theta := convTheta t.theta }
    if overwrite then ({ t1 with dataRecon := some recon }, none)
    else (t1, some recon)

/-- Modelled from the spec: the worker count used when `num_cores` is
unspecified — "the number of available processing units" — a
machine-dependent positive constant, fixed here. -/
def availableCores : ℕ := 4

/-- Ceiling division, as used by the Job Distributor to divide an axis
extent evenly among workers ("ceil-division, last chunk may be
shorter"). -/
def ceilDiv (n w : ℕ) : ℕ := (n + w - 1) / w

/-- Start indices of the contiguous chunks of size `c` covering an axis
of extent `n`. -/
def chunkStarts (c n : ℕ) : List ℕ :=
  (List.range (ceilDiv n c)).map (fun i => i * c)

/-- The contiguous sub-array of `c` indices starting at `i` along the
given axis (a numpy basic slice of a 3-D array). -/
def sliceChunk (axis : Fin 3) (i c : ℕ) (A : Arr3 ℚ) : Arr3 ℚ :=
  match axis with
  | ⟨0, _⟩ => (A.drop i).take c
  | ⟨1, _⟩ => A.map (fun p => (p.drop i).take c)
  | ⟨2, _⟩ => A.map (List.map (fun r => (r.drop i).take c))

/-- Extent of a 3-D array along the given axis. -/
def dimLen (axis : Fin 3) (A : Arr3 ℚ) : ℕ :=
  match axis with
  | ⟨0, _⟩ => A.length
  | ⟨1, _⟩ => dim1 A
  | ⟨2, _⟩ => dim2 A

/-- Concatenation of output chunks along the sharded axis, in ascending
partition order (`np.concatenate(..., axis)`); the trailing dimensions
of the base case come from the input array. -/
def reassemble (axis : Fin 3) (A : Arr3 ℚ) (chunks : List (Arr3 ℚ)) : Arr3 ℚ :=
  match axis with
  | ⟨0, _⟩ => chunks.flatten
  | ⟨1, _⟩ => chunks.foldr (fun ch acc => List.zipWith (· ++ ·) ch acc)
      (List.replicate A.length [])
  | ⟨2, _⟩ => chunks.foldr (fun ch acc => List.zipWith (List.zipWith (· ++ ·)) ch acc)
      (List.replicate A.length (List.replicate (dim1 A) []))

/-- Modelled from the spec: `distribute_jobs` of `tomopy/tools/multiprocess`
(the module is not among the sources; only its callers are).  Following
§4.1 of the spec: default the worker count to the available processing
units and the chunk size to the ceil-division of the axis extent by the
worker count, partition the array into contiguous chunks along the
chosen axis, apply the per-chunk function to each, and concatenate the
results along the sharded axis in ascending partition order — the
model is sequential, which is exactly the reassembly-in-original-order
guarantee the spec demands of the concurrent implementation. -/
def distribute_jobs (A : Arr3 ℚ) (f : Arr3 ℚ → Arr3 ℚ) (axis : Fin 3)
    (numCores chunkSize : Option ℕ) : Arr3 ℚ :=
  let n := dimLen axis A
  let w := numCores.getD availableCores
  let c := chunkSize.getD (ceilDiv n w)
  reassemble axis A ((chunkStarts c n).map (fun i => f (sliceChunk axis i c A)))

/-- Rectangularity of a rational 3-D array, with the decidable instance
needed to check concrete witnesses. -/
def Rect3Q (A : Arr3 ℚ) : Prop :=
  (∀ p ∈ A, p.length = dim1 A) ∧ (∀ p ∈ A, ∀ r ∈ p, r.length = dim2 A)

instance (A : Arr3 ℚ) : Decidable (Rect3Q A) := by
  unfold Rect3Q; infer_instance

/-- The postprocessing functions hooked onto `XTomoDataset` by
`xtomo_postprocess.py`; `regionSegment` is the module-level
`region_segment` wrapper (lines 49-71), `thresholdSegment` the
`threshold_segment` wrapper (lines 95-116). -/
inductive PostFn where
  | adaptiveSegment
  | removeBackground
  | regionSegment
  | thresholdSegment
  deriving DecidableEq

/-- The method table installed by the `setattr` block of
`xtomo_postprocess.py` (lines 120-124): note that the name
`region_segment` is bound to the `threshold_segment` wrapper. -/
def postMethodTable : List (String × PostFn) :=
  [("adaptive_segment", PostFn.adaptiveSegment),
   ("remove_background", PostFn.removeBackground),
   ("region_segment", PostFn.thresholdSegment),
   ("threshold_segment", PostFn.thresholdSegment)]

/-- Attribute lookup on `XTomoDataset` for the postprocessing methods. -/
def installedMethod (n : String) : Option PostFn := postMethodTable.lookup n

def regionSegmentName : String := "region_segment"

/-- The state the postprocessing wrappers act on: the reconstructed
volume of the dataset. -/
structure PostState where
  dataRecon : Arr3 ℚ

/-- All scalar values of a 3-D array in row-major order. -/
def flatten3 (A : Arr3 ℚ) : List ℚ := (A.map List.flatten).flatten

/-- `arr.min()` (junk value 0 on an empty array, which numpy rejects). -/
def arrMin (A : Arr3 ℚ) : ℚ :=
  ((flatten3 A).foldl min ((flatten3 A).headD 0))

/-- `arr.max()` (junk value 0 on an empty array). -/
def arrMax (A : Arr3 ℚ) : ℚ :=
  ((flatten3 A).foldl max ((flatten3 A).headD 0))

/-- The normalisation step shared by the segmenting wrappers:
`data = x.data_recon - x.data_recon.min(); data /= data.max()`. -/
def normalize01 (A : Arr3 ℚ) : Arr3 ℚ :=
  let B := A.map (List.map (List.map (fun v => v - arrMin A)))
  B.map (List.map (List.map (fun v => v / arrMax B)))

/-- The per-chunk kernels of the postprocessing package
(`_adaptive_segment`, `_remove_background`, `_region_segment` with its
`(low, high)` arguments applied, `_threshold_segment`); the modules are
not among the sources, so they stay abstract. -/
structure PostKernels where
  adaptive : Arr3 ℚ → Arr3 ℚ
  removeBg : Arr3 ℚ → Arr3 ℚ
  region : Arr3 ℚ → Arr3 ℚ
  threshold : Arr3 ℚ → Arr3 ℚ

/-- The module-level `threshold_segment` wrapper (lines 95-116):
normalise, distribute `_threshold_segment` over axis 0, then store or
return according to `overwrite`. -/
def thresholdSegmentW (k : Arr3 ℚ → Arr3 ℚ) (x : PostState)
    (numCores chunkSize : Option ℕ) (overwrite : Bool) :
    PostState × Option (Arr3 ℚ) :=
  let r := distribute_jobs (normalize01 x.dataRecon) k 0 numCores chunkSize
  if overwrite then ({ dataRecon := r }, none) else (x, some r)

/-- The module-level `region_segment` wrapper (lines 49-71): the same
shape of computation but distributing `_region_segment (low, high)`. -/
def regionSegmentW (k : Arr3 ℚ → Arr3 ℚ) (x : PostState)
    (numCores chunkSize : Option ℕ) (overwrite : Bool) :
    PostState × Option (Arr3 ℚ) :=
  let r := distribute_jobs (normalize01 x.dataRecon) k 0 numCores chunkSize
  if overwrite then ({ dataRecon := r }, none) else (x, some r)

/-- The `adaptive_segment` wrapper (lines 23-45). -/
def adaptiveSegmentW (k : Arr3 ℚ → Arr3 ℚ) (x : PostState)
    (numCores chunkSize : Option ℕ) (overwrite : Bool) :
    PostState × Option (Arr3 ℚ) :=
  let r := distribute_jobs (normalize01 x.dataRecon) k 0 numCores chunkSize
  if overwrite then ({ dataRecon := r }, none) else (x, some r)

/-- The `remove_background` wrapper (lines 75-91): no normalisation. -/
def removeBackgroundW (k : Arr3 ℚ → Arr3 ℚ) (x : PostState)
    (numCores chunkSize : Option ℕ) (overwrite : Bool) :
    PostState × Option (Arr3 ℚ) :=
  let r := distribute_jobs x.dataRecon k 0 numCores chunkSize
  if overwrite then ({ dataRecon := r }, none) else (x, some r)

/-- Semantics of each stored method object. -/
def runPostMethod (K : PostKernels) : PostFn →
    PostState → Option ℕ → Option ℕ → Bool → PostState × Option (Arr3 ℚ)
  | PostFn.adaptiveSegment => adaptiveSegmentW K.adaptive
  | PostFn.removeBackground => removeBackgroundW K.removeBg
  | PostFn.regionSegment => regionSegmentW K.region
  | PostFn.thresholdSegment => thresholdSegmentW K.threshold

/-- Invoking a named method through the dataset interface: look the name
up in the installed method table and run the stored function. -/
def datasetInvoke (K : PostKernels) (n : String) (x : PostState)
    (numCores chunkSize : Option ℕ) (overwrite : Bool) :
    Option (PostState × Option (Arr3 ℚ)) :=
  (installedMethod n).map (fun f => runPostMethod K f x numCores chunkSize overwrite)

/-! ### Helper lemmas -/

lemma foldl_max_map_mul (c : ℝ) (hc : 0 ≤ c) :
    ∀ (l : List ℝ) (a : ℝ),
      (l.map (fun t => t * c)).foldl max (a * c) = l.foldl max a * c := by
  intro l
  induction l with
  | nil => intro a; rfl
  | cons b t ih =>
    intro a
    simp only [List.map_cons, List.foldl_cons]
    rw [← max_mul_of_nonneg _ _ hc, ih]

lemma thetaMax_map_mul (l : List ℝ) (c : ℝ) (hc : 0 ≤ c) :
    thetaMax (l.map (fun t => t * c)) = thetaMax l * c := by
  cases l with
  | nil => simp [thetaMax]
  | cons a t => simpa [thetaMax] using foldl_max_map_mul c hc t a

/-- If the angle maximum is at most `16200/π` (so that the converted
maximum is at most 90), the in-place conversion is idempotent. -/
lemma convTheta_stable (θ : List ℝ) (h : thetaMax θ ≤ 16200 / Real.pi) :
    convTheta (convTheta θ) = convTheta θ := by
  unfold convTheta
  by_cases h90 : 90 < thetaMax θ
  · rw [if_pos h90]
    have hc : (0:ℝ) ≤ Real.pi / 180 := by positivity
    have hmax : thetaMax (θ.map (fun t => t * (Real.pi / 180)))
        = thetaMax θ * (Real.pi / 180) := thetaMax_map_mul θ _ hc
    have hle : thetaMax θ * (Real.pi / 180) ≤ 90 := by
      have hπ : (0:ℝ) < Real.pi := Real.pi_pos
      calc thetaMax θ * (Real.pi / 180)
          ≤ (16200 / Real.pi) * (Real.pi / 180) := mul_le_mul_of_nonneg_right h hc
        _ = 90 := by field_simp; ring
    rw [if_neg (by rw [hmax]; exact not_lt.mpr hle)]
  · rw [if_neg h90, if_neg h90]

lemma artRun_theta (s : SolverArgs → Arr3 ℝ) (x : XTomo) (i : ℕ)
    (ng : Option ℕ) (init : Option (Arr3 ℝ)) (ow : Bool) :
    ((artRun s x i ng init ow).1).theta = convTheta x.theta := by
  unfold artRun
  cases ow <;> simp

lemma mlemRun_theta (s : SolverArgs → Arr3 ℝ) (x : XTomo) (i : ℕ)
    (ng : Option ℕ) (init : Option (Arr3 ℝ)) (ow : Bool) :
    ((mlemRun s x i ng init ow).1).theta = convTheta x.theta := by
  unfold mlemRun
  cases ow <;> simp

lemma artArgs_theta (x : XTomo) (i : ℕ) (ng : Option ℕ)
    (init : Option (Arr3 ℝ)) : (artArgs x i ng init).theta = convTheta x.theta := rfl

lemma mlemArgs_theta (x : XTomo) (i : ℕ) (ng : Option ℕ)
    (init : Option (Arr3 ℝ)) : (mlemArgs x i ng init).theta = convTheta x.theta := rfl

/-- Trivial stand-in solver used to instantiate the wrapper models on
concrete inputs. -/
def sTriv : SolverArgs → Arr3 ℝ := fun _ => []

/-! ### C1: angle-unit auto-detection -/

/-- **C1** (amended).  For every call through the `art` or `mlem`
wrapper: if the maximum of theta exceeds 90 the solver receives theta
multiplied by `π/180` exactly once, and if the maximum is at most 90
theta is passed unchanged; moreover a second reconstruction call on the
already-converted theta performs no further conversion **provided the
original maximum is at most `16200/π ≈ 5157`** (equivalently, the
converted maximum is at most 90).  Without that bound a second call
converts again — see the counterexample. -/
theorem C1_theta_conversion (s : SolverArgs → Arr3 ℝ) (x : XTomo) (i : ℕ)
    (ng : Option ℕ) (init : Option (Arr3 ℝ)) (ow : Bool) :
    (90 < thetaMax x.theta →
      (artArgs x i ng init).theta = x.theta.map (fun t => t * (Real.pi / 180)) ∧
      (mlemArgs x i ng init).theta = x.theta.map (fun t => t * (Real.pi / 180))) ∧
    (thetaMax x.theta ≤ 90 →
      (artArgs x i ng init).theta = x.theta ∧
      (mlemArgs x i ng init).theta = x.theta) ∧
    (thetaMax x.theta ≤ 16200 / Real.pi →
      (artArgs ((artRun s x i ng init ow).1) i ng init).theta
        = ((artRun s x i ng init ow).1).theta ∧
      (mlemArgs ((mlemRun s x i ng init ow).1) i ng init).theta
        = ((mlemRun s x i ng init ow).1).theta) := by
  refine ⟨fun h => ?_, fun h => ?_, fun h => ?_⟩
  · have hc : convTheta x.theta = x.theta.map (fun t => t * (Real.pi / 180)) := by
      rw [convTheta, if_pos h]
    exact ⟨hc, hc⟩
  · have hc : convTheta x.theta = x.theta := by
      rw [convTheta, if_neg (not_lt.mpr h)]
    exact ⟨hc, hc⟩
  · have h2 := convTheta_stable x.theta h
    have ha := artRun_theta s x i ng init ow
    have hm := mlemRun_theta s x i ng init ow
    constructor
    · rw [artArgs_theta, ha]
      exact h2
    · rw [mlemArgs_theta, hm]
      exact h2

def thetaC1 : List ℝ := [0, 45, 90, 135]

def xC1 : XTomo :=
  { data := [[[1]]], theta := thetaC1,
    center := { val := 0, isF32 := false }, dataRecon := none }

lemma thetaMax_C1 : thetaMax thetaC1 = 135 := by
  simp only [thetaC1, thetaMax, List.foldl_cons, List.foldl_nil]
  rw [max_eq_right (by norm_num : (0:ℝ) ≤ 45),
      max_eq_right (by norm_num : (45:ℝ) ≤ 90),
      max_eq_right (by norm_num : (90:ℝ) ≤ 135)]

/-- Witness for C1: the theta array `[0, 45, 90, 135]` (max 135 > 90) is
converted to radians on the first call and a second call converts no
further. -/
theorem C1_theta_conversion_witness :
    (artArgs xC1 1 none none).theta = thetaC1.map (fun t => t * (Real.pi / 180)) ∧
    (artArgs ((artRun sTriv xC1 1 none none false).1) 1 none none).theta
      = ((artRun sTriv xC1 1 none none false).1).theta := by
  have h := C1_theta_conversion sTriv xC1 1 none none false
  have hx : xC1.theta = thetaC1 := rfl
  refine ⟨(h.1 ?_).1, (h.2.2 ?_).1⟩
  · rw [hx, thetaMax_C1]; norm_num
  · rw [hx, thetaMax_C1, le_div_iff₀ Real.pi_pos]
    nlinarith [Real.pi_le_four]

def xC1b : XTomo :=
  { data := [[[1]]], theta := [10000],
    center := { val := 0, isF32 := false }, dataRecon := none }

/-- Counterexample to C1 as stated: for the theta array `[10000]`
(degrees), the first `art` call converts to `[10000·π/180] ≈ [174.5]`,
whose maximum still exceeds 90, so a second reconstruction call on the
already-converted theta multiplies by `π/180` again. -/
theorem C1_second_call_converts_again :
    (artArgs ((artRun sTriv xC1b 1 none none false).1) 1 none none).theta
      ≠ ((artRun sTriv xC1b 1 none none false).1).theta := by
  have hpost : ((artRun sTriv xC1b 1 none none false).1).theta
      = convTheta [10000] := artRun_theta sTriv xC1b 1 none none false
  have h1 : thetaMax ([(10000:ℝ)]) = 10000 := by simp [thetaMax]
  have hc1 : convTheta [(10000:ℝ)] = [10000 * (Real.pi / 180)] := by
    rw [convTheta, if_pos (by rw [h1]; norm_num)]
    simp
  have h2 : thetaMax ([(10000:ℝ) * (Real.pi / 180)]) = 10000 * (Real.pi / 180) := by
    simp [thetaMax]
  have h90 : (90:ℝ) < 10000 * (Real.pi / 180) := by
    nlinarith [Real.pi_gt_three]
  rw [artArgs_theta, hpost, hc1]
  rw [convTheta, if_pos (by rw [h2]; exact h90)]
  intro heq
  simp only [List.map_cons, List.map_nil, List.cons.injEq, and_true] at heq
  have hpos : (0:ℝ) < 10000 * (Real.pi / 180) := by positivity
  have heq2 : (10000 * (Real.pi / 180)) * (Real.pi / 180)
      = (10000 * (Real.pi / 180)) * 1 := by rw [mul_one]; exact heq
  have hπ1 : Real.pi / 180 = 1 := mul_left_cancel₀ (ne_of_gt hpos) heq2
  nlinarith [Real.pi_lt_d2]

/-! ### C2: pre-log preprocessing handed to the solvers -/

/-- **C2** (amended).  The `mlem` wrapper hands the solver
`|−ln(padded data)|` as the spec requires, but the `art` wrapper hands
`−ln(padded data)` **without** the absolute value (line 150 of
`xtomo_recon.py` has no `np.abs`). -/
theorem C2_prelog (x : XTomo) (i : ℕ) (ng : Option ℕ)
    (init : Option (Arr3 ℝ)) :
    (mlemArgs x i ng init).data = specAbsNegLog (paddedData x) ∧
    (artArgs x i ng init).data = map3 (fun v => -Real.log v) (paddedData x) :=
  ⟨rfl, rfl⟩

lemma sqrt_two_sq : Real.sqrt 2 ^ 2 = 2 := Real.sq_sqrt (by norm_num)

lemma defaultNumPad_one : defaultNumPad 1 = 2 := by
  unfold defaultNumPad
  rw [Nat.ceil_eq_iff (by norm_num : (2:ℕ) ≠ 0)]
  push_cast
  constructor
  · nlinarith [sqrt_two_sq, Real.sqrt_nonneg 2]
  · nlinarith [sqrt_two_sq, Real.sqrt_nonneg 2]

noncomputable def xC2 : XTomo :=
  { data := [[[Real.exp 1]]], theta := [1],
    center := { val := 0, isF32 := false }, dataRecon := none }

/-- Counterexample to C2 as stated: for the one-voxel volume holding
`e = exp 1`, the `art` wrapper hands the solver `−ln` of the padded
data, `[[[-1, 0]]]`, which differs from the spec's `|−ln|` value
`[[[1, 0]]]`. -/
theorem C2_art_data_not_abs :
    (artArgs xC2 1 none none).data ≠ specAbsNegLog (paddedData xC2) := by
  have hd : dim2 xC2.data = 1 := rfl
  have hpadded : paddedData xC2 = [[[Real.exp 1, 1]]] := by
    rw [paddedData, hd, defaultNumPad_one]
    show applyPadding [[[Real.exp 1]]] 2 = [[[Real.exp 1, 1]]]
    simp [applyPadding, padRow, List.replicate]
  have hart : (artArgs xC2 1 none none).data
      = map3 (fun v => -Real.log v) (paddedData xC2) := rfl
  rw [hart, hpadded]
  simp only [map3, specAbsNegLog, List.map_cons, List.map_nil,
    Real.log_exp, Real.log_one, neg_zero, abs_neg, abs_zero, abs_one, ne_eq,
    List.cons.injEq, and_true]
  norm_num

/-! ### C3: frame effect of overwrite=False -/

/-- **C3** (amended).  With `overwrite=False` the reconstruction is
returned to the caller and the dataset's `data`, `center` (for
`art`/`mlem`), and `data_recon` fields are left unchanged; **however**
`art` and `mlem` write the angle-unit conversion back into
`xtomo.theta` in place (so theta changes exactly when its maximum
exceeds 90), and `gridrec` overwrites `xtomo.center` with its float32
coercion regardless of the `overwrite` flag while leaving `data`,
`theta` and `data_recon` unchanged. -/
theorem C3_overwrite_false_frame (sA sM : SolverArgs → Arr3 ℝ)
    (g : Arr3 ℝ → ℝ → List ℝ → Arr3 ℝ) (x : XTomo) (i : ℕ)
    (ng : Option ℕ) (init : Option (Arr3 ℝ)) :
    ((artRun sA x i ng init false).1.data = x.data ∧
     (artRun sA x i ng init false).1.center = x.center ∧
     (artRun sA x i ng init false).1.dataRecon = x.dataRecon ∧
     (artRun sA x i ng init false).2 = some (sA (artArgs x i ng init)) ∧
     (artRun sA x i ng init false).1.theta = convTheta x.theta) ∧
    ((mlemRun sM x i ng init false).1.data = x.data ∧
     (mlemRun sM x i ng init false).1.center = x.center ∧
     (mlemRun sM x i ng init false).1.dataRecon = x.dataRecon ∧
     (mlemRun sM x i ng init false).2 = some (sM (mlemArgs x i ng init)) ∧
     (mlemRun sM x i ng init false).1.theta = convTheta x.theta) ∧
    ((gridrecRun g x false).1.data = x.data ∧
     (gridrecRun g x false).1.theta = x.theta ∧
     (gridrecRun g x false).1.dataRecon = x.dataRecon ∧
     (gridrecRun g x false).2 = some (g x.data x.center.val x.theta)) := by
  refine ⟨⟨rfl, rfl, rfl, rfl, rfl⟩, ⟨rfl, rfl, rfl, rfl, rfl⟩,
    rfl, rfl, rfl, ?_⟩
  cases hc : x.center.isF32 <;> simp [gridrecRun, hc]

def xC3 : XTomo :=
  { data := [[[1]]], theta := thetaC1,
    center := { val := 650, isF32 := false }, dataRecon := none }

/-- Counterexample to C3 as stated: calling `art` with
`overwrite=False` on a dataset whose theta is `[0, 45, 90, 135]`
(max > 90) changes the dataset's theta field in place, so not every
field is left unchanged. -/
theorem C3_theta_field_mutated :
    ((artRun sTriv xC3 1 none none false).1).theta ≠ xC3.theta := by
  rw [artRun_theta]
  have hx : xC3.theta = thetaC1 := rfl
  rw [hx, convTheta, if_pos (by rw [thetaMax_C1]; norm_num)]
  rw [show thetaC1 = ([0, 45, 90, 135] : List ℝ) from rfl]
  intro h
  simp only [List.map_cons, List.map_nil, List.cons.injEq, and_true] at h
  obtain ⟨-, h45, -⟩ := h
  have hπ : Real.pi ≤ 4 := Real.pi_le_four
  linarith

/-! ### C4: rotation center shift by half the padding -/

lemma length_padRow (p : ℕ) (r : List ℝ) (h : r.length ≤ p) :
    (padRow p r).length = p := by
  simp [padRow]
  omega

lemma dim1_applyPadding (A : Arr3 ℝ) (p : ℕ) :
    dim1 (applyPadding A p) = dim1 A := by
  cases A with
  | nil => rfl
  | cons a t => simp [applyPadding, dim1]

lemma dim2_applyPadding (r : List ℝ) (rest : List (List ℝ))
    (t : List (List (List ℝ))) (p : ℕ) (h : r.length ≤ p) :
    dim2 (applyPadding ((r :: rest) :: t) p) = p := by
  simp [applyPadding, dim2, length_padRow p r h]

lemma one_le_sqrt_two : (1:ℝ) ≤ Real.sqrt 2 := by
  nlinarith [sqrt_two_sq, Real.sqrt_nonneg 2]

lemma le_defaultNumPad (n : ℕ) : n ≤ defaultNumPad n := by
  unfold defaultNumPad
  calc n = ⌈(n:ℝ)⌉₊ := (Nat.ceil_natCast n).symm
    _ ≤ ⌈(n:ℝ) * Real.sqrt 2⌉₊ :=
      Nat.ceil_le_ceil (le_mul_of_one_le_right (Nat.cast_nonneg n) one_le_sqrt_two)

lemma dim2_paddedData (x : XTomo) (h1 : x.data ≠ [])
    (h2 : x.data.headD [] ≠ []) :
    dim2 (paddedData x) = defaultNumPad (dim2 x.data) := by
  obtain ⟨a, t, ha⟩ := List.exists_cons_of_ne_nil h1
  have h2a : a ≠ [] := by rw [ha] at h2; simpa using h2
  obtain ⟨r, rr, hr⟩ := List.exists_cons_of_ne_nil h2a
  rw [paddedData, ha, hr]
  exact dim2_applyPadding r rr t _ (le_defaultNumPad r.length)

/-- **C4** (confirmed).  For `art` and `mlem` the rotation center handed
to the per-slice solver equals the dataset's center plus half the number
of pixels added by padding:
`center + (padded_pixel_count − original_pixel_count)/2`. -/
theorem C4_center_shift (x : XTomo) (i : ℕ) (ng : Option ℕ)
    (init : Option (Arr3 ℝ)) (h1 : x.data ≠ [])
    (h2 : x.data.headD [] ≠ []) :
    (artArgs x i ng init).center
      = x.center.val + ((defaultNumPad (dim2 x.data) : ℝ) - (dim2 x.data : ℝ)) / 2 ∧
    (mlemArgs x i ng init).center
      = x.center.val + ((defaultNumPad (dim2 x.data) : ℝ) - (dim2 x.data : ℝ)) / 2 := by
  have hkey := dim2_paddedData x h1 h2
  constructor
  · have ha : (artArgs x i ng init).center
        = x.center.val + ((dim2 (paddedData x) : ℝ) - (dim2 x.data : ℝ)) / 2 := rfl
    rw [ha, hkey]
  · have hm : (mlemArgs x i ng init).center
        = x.center.val + ((dim2 (paddedData x) : ℝ) - (dim2 x.data : ℝ)) / 2 := rfl
    rw [hm, hkey]

lemma defaultNumPad_eight : defaultNumPad 8 = 12 := by
  unfold defaultNumPad
  rw [Nat.ceil_eq_iff (by norm_num : (12:ℕ) ≠ 0)]
  push_cast
  constructor
  · nlinarith [sqrt_two_sq, Real.sqrt_nonneg 2]
  · nlinarith [sqrt_two_sq, Real.sqrt_nonneg 2]

def xC4 : XTomo :=
  { data := [[List.replicate 8 (1:ℝ)]], theta := [1],
    center := { val := 650, isF32 := false }, dataRecon := none }

/-- Witness for C4: on an 8-pixel dataset with center 650, the padded
width is `⌈8√2⌉ = 12` and the solver receives center
`650 + (12 − 8)/2 = 652`. -/
theorem C4_center_shift_witness : (artArgs xC4 1 none none).center = 652 := by
  have h := (C4_center_shift xC4 1 none none (by simp [xC4]) (by simp [xC4])).1
  have hd : dim2 xC4.data = 8 := by simp [xC4, dim2]
  rw [h, hd, defaultNumPad_eight, show xC4.center.val = (650:ℝ) from rfl]
  norm_num

/-! ### C5: grid-size defaulting and clamping -/

/-- **C5** (confirmed).  For `art` and `mlem`: when `num_grid` is not
supplied, or the requested `num_grid` exceeds the unpadded pixel
extent, the grid size used is `floor(padded_pixel_count / √2)`;
a supplied `num_grid` at most the pixel extent is used as given. -/
theorem C5_num_grid (x : XTomo) (i : ℕ) (init : Option (Arr3 ℝ)) :
    ((artArgs x i none init).numGrid
        = ⌊((dim2 (paddedData x) : ℝ)) / Real.sqrt 2⌋₊ ∧
     (mlemArgs x i none init).numGrid
        = ⌊((dim2 (paddedData x) : ℝ)) / Real.sqrt 2⌋₊) ∧
    (∀ g : ℕ, dim2 x.data < g →
      (artArgs x i (some g) init).numGrid
          = ⌊((dim2 (paddedData x) : ℝ)) / Real.sqrt 2⌋₊ ∧
      (mlemArgs x i (some g) init).numGrid
          = ⌊((dim2 (paddedData x) : ℝ)) / Real.sqrt 2⌋₊) ∧
    (∀ g : ℕ, g ≤ dim2 x.data →
      (artArgs x i (some g) init).numGrid = g ∧
      (mlemArgs x i (some g) init).numGrid = g) := by
  refine ⟨⟨rfl, rfl⟩, fun g hg => ?_, fun g hg => ?_⟩
  · have ha : (artArgs x i (some g) init).numGrid
        = if dim2 x.data < g then defaultNumGrid (dim2 (paddedData x)) else g := rfl
    have hm : (mlemArgs x i (some g) init).numGrid
        = if dim2 x.data < g then defaultNumGrid (dim2 (paddedData x)) else g := rfl
    rw [ha, hm, if_pos hg]
    exact ⟨rfl, rfl⟩
  · have ha : (artArgs x i (some g) init).numGrid
        = if dim2 x.data < g then defaultNumGrid (dim2 (paddedData x)) else g := rfl
    have hm : (mlemArgs x i (some g) init).numGrid
        = if dim2 x.data < g then defaultNumGrid (dim2 (paddedData x)) else g := rfl
    rw [ha, hm, if_neg (not_lt.mpr hg)]
    exact ⟨rfl, rfl⟩

def xC5 : XTomo :=
  { data := [[List.replicate 8 (1:ℝ)]], theta := [1],
    center := { val := 650, isF32 := false }, dataRecon := none }

lemma floor_twelve_div_sqrt_two : ⌊((12:ℕ):ℝ) / Real.sqrt 2⌋₊ = 8 := by
  have hpos : (0:ℝ) < Real.sqrt 2 := Real.sqrt_pos.mpr (by norm_num)
  rw [Nat.floor_eq_iff (by positivity)]
  push_cast
  constructor
  · rw [le_div_iff₀ hpos]
    nlinarith [sqrt_two_sq, Real.sqrt_nonneg 2]
  · rw [div_lt_iff₀ hpos]
    nlinarith [sqrt_two_sq, Real.sqrt_nonneg 2]

/-- Witness for C5: on an 8-pixel dataset (padded width 12), a requested
grid of 20 (> 8) is clamped to `⌊12/√2⌋ = 8`, the default is also 8, and
a requested grid of 5 (≤ 8) is used as given. -/
theorem C5_num_grid_witness :
    (artArgs xC5 1 (some 20) none).numGrid = 8 ∧
    (artArgs xC5 1 (some 5) none).numGrid = 5 ∧
    (artArgs xC5 1 none none).numGrid = 8 := by
  have h := C5_num_grid xC5 1 none
  have hd : dim2 xC5.data = 8 := by simp [xC5, dim2]
  have hp : dim2 (paddedData xC5) = 12 := by
    rw [paddedData, hd, defaultNumPad_eight]
    rw [show xC5.data = [[List.replicate 8 (1:ℝ)]] from rfl]
    exact dim2_applyPadding _ _ _ 12 (by simp)
  refine ⟨?_, ?_, ?_⟩
  · rw [(h.2.1 20 (by rw [hd]; norm_num)).1, hp]
    exact floor_twelve_div_sqrt_two
  · exact (h.2.2 5 (by rw [hd]; norm_num)).1
  · rw [h.1.1, hp]
    exact floor_twelve_div_sqrt_two

/-! ### C6: absence of configuration validation -/

/-- Trivial stand-in for the `_mlem_test` solver, which returns a
`(reconstruction, update)` pair. -/
def sPairTriv : SolverArgs → Arr3 ℝ × Arr3 ℝ := fun _ => ([], [])

/-- **C6** (amended).  The wrappers perform no configuration validation:
`art` and `mlem` dispatch the solver for **every** dataset — including
those whose angle count differs from the projection extent or whose
center lies outside the pixel range — and the only checks anywhere,
in `mlem_test`, test mere presence of data/angles/center and on failure
log a warning and return nothing, leaving the session unchanged. -/
theorem C6_no_validation (s : SolverArgs → Arr3 ℝ)
    (st : SolverArgs → Arr3 ℝ × Arr3 ℝ) (x : XTomo) (i : ℕ)
    (ng : Option ℕ) (init : Option (Arr3 ℝ)) (t : TomoSession)
    (io : Option ℕ) :
    ((artRun s x i ng init false).2 = some (s (artArgs x i ng init))) ∧
    ((mlemRun s x i ng init false).2 = some (s (mlemArgs x i ng init))) ∧
    (t.flagData = false → mlemTestRun st t io ng init false = (t, none)) ∧
    (t.flagData = true → t.flagTheta = false →
      mlemTestRun st t io ng init false = (t, none)) ∧
    (t.flagData = true → t.flagTheta = true → t.hasCenter = false →
      mlemTestRun st t io ng init false = (t, none)) := by
  refine ⟨rfl, rfl, fun h => ?_, fun h1 h2 => ?_, fun h1 h2 h3 => ?_⟩
  · simp [mlemTestRun, h]
  · simp [mlemTestRun, h1, h2]
  · simp [mlemTestRun, h1, h2, h3]

def tC6 : TomoSession :=
  { data := [[[2]]], theta := [1], center := 650,
    flagData := true, flagTheta := true, hasCenter := false,
    dataRecon := none }

def xC6 : XTomo :=
  { data := [[[2]]], theta := [1],
    center := { val := 650, isF32 := false }, dataRecon := none }

/-- Witness for C6: a session with data and angles but no center is
bypassed by `mlem_test`, which returns nothing and leaves the session
unchanged. -/
theorem C6_no_validation_witness :
    mlemTestRun sPairTriv tC6 none none none false = (tC6, none) :=
  (C6_no_validation sTriv sPairTriv xC6 1 none none tC6 none).2.2.2.2
    rfl rfl rfl

def xC6bad : XTomo :=
  { data := [[[1]], [[1]], [[1]], [[1]]], theta := [0.1, 0.2, 0.3],
    center := { val := -50, isF32 := false }, dataRecon := none }

/-- Counterexample to C6 as stated: a dataset with 4 projections but
only 3 angles and a center of −50 (outside the pixel range) is an
inconsistent configuration, yet the `art` wrapper detects nothing and
dispatches the solver, returning an ordinary reconstruction rather than
reporting any error. -/
theorem C6_inconsistent_config_not_detected :
    xC6bad.theta.length ≠ xC6bad.data.length ∧
    xC6bad.center.val < 0 ∧
    (artRun sTriv xC6bad 1 none none false).2
      = some (sTriv (artArgs xC6bad 1 none none)) := by
  refine ⟨by simp [xC6bad], by norm_num [xC6bad], rfl⟩

/-! ### C8: default initial grids -/

/-- **C8** (confirmed).  When no initial estimate is supplied, `art`
passes the solver an all-zeros initial grid of shape
`(num_slices, num_grid, num_grid)` and `mlem` passes an all-ones grid of
the same shape (the source builds both with dtype `float32`). -/
theorem C8_default_init (x : XTomo) (i : ℕ) (ng : Option ℕ) :
    (artArgs x i ng none).initMatrix
      = zeros3 (dim1 x.data) ((artArgs x i ng none).numGrid)
          ((artArgs x i ng none).numGrid) ∧
    (mlemArgs x i ng none).initMatrix
      = ones3 (dim1 x.data) ((mlemArgs x i ng none).numGrid)
          ((mlemArgs x i ng none).numGrid) := by
  constructor
  · have ha : (artArgs x i ng none).initMatrix
        = zeros3 (dim1 (paddedData x)) ((artArgs x i ng none).numGrid)
            ((artArgs x i ng none).numGrid) := rfl
    rw [ha]
    simp only [paddedData, dim1_applyPadding]
  · have hm : (mlemArgs x i ng none).initMatrix
        = ones3 (dim1 (paddedData x)) ((mlemArgs x i ng none).numGrid)
            ((mlemArgs x i ng none).numGrid) := rfl
    rw [hm]
    simp only [paddedData, dim1_applyPadding]

/-! ### C10: gridrec mutates the center field regardless of overwrite -/

def gTriv : Arr3 ℝ → ℝ → List ℝ → Arr3 ℝ := fun _ _ _ => []

/-- **C10** (confirmed).  Whenever `xtomo.center` is not already a
`np.float32`, the `gridrec` wrapper overwrites the dataset's center
field with its float32 coercion before reconstructing, and this
mutation happens for both values of `overwrite`; the flag only controls
whether the reconstruction is stored in `data_recon` or returned. -/
theorem C10_gridrec_center_mutation (x : XTomo)
    (h : x.center.isF32 = false) (g : Arr3 ℝ → ℝ → List ℝ → Arr3 ℝ) :
    ((gridrecRun g x true).1.center = { val := x.center.val, isF32 := true } ∧
     (gridrecRun g x false).1.center = { val := x.center.val, isF32 := true }) ∧
    (gridrecRun g x true).1.center ≠ x.center ∧
    ((gridrecRun g x true).1.dataRecon = some (g x.data x.center.val x.theta) ∧
     (gridrecRun g x true).2 = none) ∧
    ((gridrecRun g x false).2 = some (g x.data x.center.val x.theta) ∧
     (gridrecRun g x false).1.dataRecon = x.dataRecon) := by
  refine ⟨⟨by simp [gridrecRun, h], by simp [gridrecRun, h]⟩, ?_,
    ⟨by simp [gridrecRun, h], by simp [gridrecRun, h]⟩,
    ⟨by simp [gridrecRun, h], by simp [gridrecRun, h]⟩⟩
  intro he
  have hiso := congrArg PyVal.isF32 he
  rw [h] at hiso
  simp [gridrecRun, h] at hiso

def xC10 : XTomo :=
  { data := [[[3]]], theta := [1],
    center := { val := 650, isF32 := false }, dataRecon := none }

/-- Witness for C10: on a dataset whose center 650 is not a float32
scalar, `gridrec` replaces the center field by the float32 value under
both overwrite settings, and with `overwrite=False` the reconstruction
is returned while `data_recon` stays untouched. -/
theorem C10_gridrec_center_mutation_witness :
    (gridrecRun gTriv xC10 true).1.center = { val := 650, isF32 := true } ∧
    (gridrecRun gTriv xC10 false).1.center = { val := 650, isF32 := true } ∧
    (gridrecRun gTriv xC10 false).2
      = some (gTriv xC10.data 650 xC10.theta) := by
  have h := C10_gridrec_center_mutation xC10 rfl gTriv
  exact ⟨h.1.1, h.1.2, h.2.2.2.1⟩

/-! ### C9: the installed region_segment method -/

lemma lookup_val_mem {α β : Type} [BEq α] :
    ∀ (l : List (α × β)) (a : α) (b : β),
      l.lookup a = some b → b ∈ l.map Prod.snd := by
  intro l
  induction l with
  | nil => intro a b h; simp [List.lookup] at h
  | cons p t ih =>
    obtain ⟨k, v⟩ := p
    intro a b h
    rw [show ((k, v) :: t).lookup a = match a == k with
        | true => some v
        | false => t.lookup a from rfl] at h
    cases hb : a == k
    · rw [hb] at h
      exact List.mem_cons_of_mem _ (ih a b h)
    · rw [hb] at h
      have h2 : some v = some b := h
      rw [← Option.some.inj h2]
      exact List.mem_cons_self _ _

/-- **C9** (confirmed).  The method installed on `XTomoDataset` under the
name `region_segment` is the `threshold_segment` wrapper, so invoking
`region_segment` through the dataset interface computes exactly the
`threshold_segment` function on every dataset state and argument list,
and the module-level `region_segment` wrapper is not reachable through
the dataset interface under any name. -/
theorem C9_region_segment_is_threshold :
    (∀ (K : PostKernels) (x : PostState) (nc cs : Option ℕ) (ow : Bool),
      datasetInvoke K regionSegmentName x nc cs ow
        = some (thresholdSegmentW K.threshold x nc cs ow)) ∧
    (∀ n : String, installedMethod n ≠ some PostFn.regionSegment) := by
  constructor
  · intro K x nc cs ow
    have hl : installedMethod regionSegmentName = some PostFn.thresholdSegment := by
      decide
    simp [datasetInvoke, hl, runPostMethod]
  · intro n h
    have hmem := lookup_val_mem postMethodTable n PostFn.regionSegment h
    exact absurd hmem (by decide)

/-! ### C7: the Job Distributor identity round trip -/

lemma flatten_chunks {α : Type} (c : ℕ) :
    ∀ (k : ℕ) (l : List α), l.length ≤ k * c →
      ((List.range k).map (fun i => (l.drop (i * c)).take c)).flatten = l := by
  intro k
  induction k with
  | zero =>
    intro l hl
    have hnil : l = [] := List.eq_nil_of_length_eq_zero (by omega)
    simp [hnil]
  | succ k ih =>
    intro l hl
    rw [List.range_succ_eq_map, List.map_cons, List.map_map, List.flatten_cons]
    have hmap : (List.range k).map ((fun i => (l.drop (i * c)).take c) ∘ Nat.succ)
        = (List.range k).map (fun i => (((l.drop c).drop (i * c))).take c) := by
      apply List.map_congr_left
      intro i _
      simp only [Function.comp_apply, List.drop_drop]
      congr 2
      simp [Nat.succ_eq_add_one]
      ring
    rw [hmap, ih (l.drop c) (by
      rw [List.length_drop]
      have : (k + 1) * c = k * c + c := by ring
      omega)]
    simp

lemma ceilDiv_mul_ge (n c : ℕ) (hc : 0 < c) : n ≤ ceilDiv n c * c := by
  cases n with
  | zero => exact Nat.zero_le _
  | succ m =>
    have h1 : ceilDiv (m + 1) c = m / c + 1 := by
      unfold ceilDiv
      have he : m + 1 + c - 1 = m + c := by omega
      rw [he, Nat.add_div_right m hc]
    rw [h1]
    exact (Nat.div_lt_iff_lt_mul hc).mp (Nat.lt_succ_self _)

lemma cover_of_config (n w : ℕ) (cs : Option ℕ) (hw : 0 < w)
    (hcs : ∀ k, cs = some k → 0 < k) :
    n ≤ ceilDiv n (cs.getD (ceilDiv n w)) * (cs.getD (ceilDiv n w)) := by
  cases cs with
  | some k => exact ceilDiv_mul_ge n k (hcs k rfl)
  | none =>
    cases n with
    | zero => exact Nat.zero_le _
    | succ m =>
      apply ceilDiv_mul_ge
      show 0 < ceilDiv (m + 1) w
      unfold ceilDiv
      have he : m + 1 + w - 1 = m + w := by omega
      rw [he]
      exact (Nat.one_le_div_iff hw).mpr (by omega)

lemma replicate_eq_map_const {β δ : Type} (b : δ) :
    ∀ (A : List β), List.replicate A.length b = A.map (fun _ => b) := by
  intro A
  induction A with
  | nil => rfl
  | cons p t ih => simp only [List.length_cons, List.replicate_succ, List.map_cons, ih]

lemma zipWith_map_same {β γ δ ε : Type} (g : γ → δ → ε) (u : β → γ) (v : β → δ) :
    ∀ (A : List β), List.zipWith g (A.map u) (A.map v) = A.map (fun p => g (u p) (v p)) := by
  intro A
  induction A with
  | nil => rfl
  | cons p t ih => simp only [List.map_cons, List.zipWith_cons_cons, ih]

lemma foldr_zipWith_map_pointwise {β γ δ ι : Type}
    (g : γ → δ → δ) (h : ι → β → γ) (b : β → δ) :
    ∀ (L : List ι) (A : List β),
      L.foldr (fun i acc => List.zipWith g (A.map (h i)) acc) (A.map b)
        = A.map (fun p => L.foldr (fun i acc => g (h i p) acc) (b p)) := by
  intro L
  induction L with
  | nil => intro A; rfl
  | cons i L ih =>
    intro A
    simp only [List.foldr_cons]
    rw [ih, zipWith_map_same]

lemma foldr_append_eq_flatten_map {α ι : Type} (f : ι → List α) :
    ∀ L : List ι, L.foldr (fun s acc => f s ++ acc) [] = (L.map f).flatten := by
  intro L
  induction L with
  | nil => rfl
  | cons s t ih => simp [ih]

/-- One axis-aligned list is rebuilt exactly from its chunk covering. -/
lemma flatten_chunkStarts {α : Type} (c n : ℕ) (l : List α)
    (hlen : l.length = n) (hcov : n ≤ ceilDiv n c * c) :
    ((chunkStarts c n).map (fun s => (l.drop s).take c)).flatten = l := by
  rw [chunkStarts, List.map_map]
  exact flatten_chunks c (ceilDiv n c) l (by omega)

/-- **C7** (confirmed, spec-modelled).  For every 3-D array, every axis,
and every worker-count and chunk-size configuration (positive where
supplied), distributing the identity per-chunk function returns the
array exactly: the chunks are reassembled along the sharded axis in
ascending original-index order, so the round trip is the identity. -/
theorem C7_distribute_identity (A : Arr3 ℚ) (axis : Fin 3)
    (nc cs : Option ℕ) (hrect : Rect3Q A)
    (hw : 0 < nc.getD availableCores)
    (hcs : ∀ k, cs = some k → 0 < k) :
    distribute_jobs A (fun ch => ch) axis nc cs = A := by
  have hcov := fun n => cover_of_config n (nc.getD availableCores) cs hw hcs
  fin_cases axis
  · simp only [distribute_jobs, dimLen, reassemble, sliceChunk]
    exact flatten_chunkStarts _ _ A rfl (hcov A.length)
  · simp only [distribute_jobs, dimLen, reassemble, sliceChunk]
    rw [List.foldr_map, replicate_eq_map_const, foldr_zipWith_map_pointwise]
    refine (List.map_congr_left ?_).trans (List.map_id' A)
    intro p hp
    rw [foldr_append_eq_flatten_map]
    exact flatten_chunkStarts _ _ p (hrect.1 p hp) (hcov (dim1 A))
  · simp only [distribute_jobs, dimLen, reassemble, sliceChunk]
    rw [List.foldr_map, replicate_eq_map_const, foldr_zipWith_map_pointwise]
    refine (List.map_congr_left ?_).trans (List.map_id' A)
    intro p hp
    rw [show List.replicate (dim1 A) ([] : List ℚ) = List.replicate p.length [] by
      rw [hrect.1 p hp]]
    rw [replicate_eq_map_const, foldr_zipWith_map_pointwise]
    refine (List.map_congr_left ?_).trans (List.map_id' p)
    intro r hr
    rw [foldr_append_eq_flatten_map]
    exact flatten_chunkStarts _ _ r (hrect.2 p hp r hr) (hcov (dim2 A))

def aC7 : Arr3 ℚ := [[[1, 2], [3, 4]], [[5, 6], [7, 8]]]

/-- Witness for C7: a concrete 2×2×2 array sharded along axis 1 with the
default worker count and chunk size round-trips unchanged through the
distributor with the identity per-chunk function. -/
theorem C7_distribute_identity_witness :
    distribute_jobs aC7 (fun ch => ch) 1 none none = aC7 :=
  C7_distribute_identity aC7 1 none none (by decide) (by decide)
    (fun _ h => nomatch h)

def kTrivPost : PostKernels :=
  { adaptive := fun a => a, removeBg := fun a => a,
    region := fun a => a, threshold := fun a => a }

def pC9 : PostState := { dataRecon := [[[1, 2]]] }

/-- Witness for C9: invoking the dataset's `region_segment` on a
concrete state runs exactly the `threshold_segment` wrapper. -/
theorem C9_region_segment_is_threshold_witness :
    datasetInvoke kTrivPost regionSegmentName pC9 none none false
      = some (thresholdSegmentW kTrivPost.threshold pC9 none none false) :=
  C9_region_segment_is_threshold.1 kTrivPost pC9 none none false
